import Mathlib

/-!
# Verification of the banalysis midata parser and dashboard wiring

Shallow embedding of `src/banalysis/inputs.py` (`read_midata`,
`_check_midata_columns`) and the axis-bound update in
`src/banalysis/dashboard.py` (`Dashboard._update_source`).

Modelling conventions:
* The input to `read_midata` is the table produced by `pd.read_csv`:
  a header row (list of strings; `read_csv` mangles duplicate raw
  headers, so the raw labels are distinct) and data rows whose cells
  are `Option String` — `none` models the `NaN` that `read_csv`
  produces for an empty CSV field, `some s` a text cell.
* Python exceptions become constructors of `ParseError`:
  `MidataCSVError` (the spec's `SchemaError`), the `ValueError` of
  `pd.to_numeric` (the spec's `NumericParseError`), the `ValueError` of
  `pd.to_datetime` (the spec's `DateParseError`), the `IndexError` of
  `df.iat[-1, 0]` on an empty frame, and the `AttributeError` raised by
  `.lower()` on a `NaN` cell or by `.str` on a column that `read_csv`
  typed as float because every one of its cells was empty.
* Monetary values are exact rationals (the numeric semantics of the
  decimal strings the parser accepts); scientific notation and
  surrounding whitespace accepted by `pd.to_numeric` are not modelled,
  no claim exercises them.
* `read_csv` column dtype inference is modelled: a column whose every
  cell is numeric text or empty is read as a numeric (float/int) dtype,
  so its values are numbers, not strings — `.lower()` on such a date
  cell and `.str` on such an amount/balance column raise
  `AttributeError`. Only columns holding at least one non-numeric
  string stay `object` dtype and behave as string columns.
* `pd.Timestamp` is bounded: `pd.to_datetime` raises
  `OutOfBoundsDatetime` (a `ValueError` subclass, mapped to the same
  constructor as the format failure) for in-format dates outside
  1677-09-22 .. 2262-04-11.
-/

/-- Python `str.lower()` restricted to ASCII case mapping, which is all
the parser compares ("arranged"). -/
def lowerStr (s : String) : String := ⟨s.data.map Char.toLower⟩

/-- Python `str.strip()`: remove leading and trailing whitespace. -/
def stripStr (s : String) : String :=
  ⟨((s.data.dropWhile Char.isWhitespace).reverse.dropWhile Char.isWhitespace).reverse⟩

/-- Header normalisation `c.strip().lower()` from `_check_midata_columns`. -/
def normalizeHeader (s : String) : String := lowerStr (stripStr s)

/-- Python `str.startswith` on the underlying characters. -/
def startsWithStr (pre s : String) : Bool := pre.data.isPrefixOf s.data

/-- Python `value.replace("£", "")` for the one-character pattern `£`:
every occurrence of the character is removed. -/
def removePound (s : String) : String := ⟨s.data.filter (fun c => c ≠ '£')⟩

/-- Numeric value of a (known-digit) character list, most significant first. -/
def digitsToNat (cs : List Char) : Nat :=
  cs.foldl (fun n c => n * 10 + (c.toNat - 48)) 0

/-- All characters are decimal digits. -/
def isDigits (cs : List Char) : Bool := cs.all Char.isDigit

/-- `pd.to_numeric(..., errors="raise")` on a single string cell: an
optional sign followed by decimal digits with an optional fractional
part, evaluated exactly as a rational. Returns `none` on any string the
conversion would raise `ValueError` for. -/
def toNumericStr (s : String) : Option Rat :=
  let cs := s.data
  let signed : Bool × List Char :=
    match cs with
    | '-' :: r => (true, r)
    | '+' :: r => (false, r)
    | r => (false, r)
  let ip := signed.2.takeWhile (fun c => c ≠ '.')
  let rest := signed.2.dropWhile (fun c => c ≠ '.')
  let fp : Option (List Char) :=
    match rest with
    | [] => some []
    | _ :: r => some r
  match fp with
  | none => none
  | some f =>
    if isDigits ip && isDigits f && (!ip.isEmpty || !f.isEmpty) then
      let den : Nat := 10 ^ f.length
      let n : Nat := digitsToNat ip * den + digitsToNat f
      some (if signed.1 then mkRat (-(n : Int)) den else mkRat n den)
    else none

/-- Whether `read_csv` reads this cell as a number: empty cells become
`NaN` (a float) and numeric text is converted. A column whose every
cell satisfies this is inferred as a numeric dtype, so its values are
floats/ints rather than strings. -/
def cellIsNumericText (c : Option String) : Bool :=
  match c with
  | none => true
  | some s => (toNumericStr s).isSome

/-- A calendar date as produced by `pd.to_datetime(...).dt.date`. -/
structure Date where
  year : Nat
  month : Nat
  day : Nat
deriving DecidableEq

/-- Gregorian leap-year rule. -/
def isLeap (y : Nat) : Bool := (y % 4 == 0 && y % 100 != 0) || y % 400 == 0

/-- Days in a month, honouring leap years. -/
def daysInMonth (y m : Nat) : Nat :=
  if m == 2 then (if isLeap y then 29 else 28)
  else if m == 4 || m == 6 || m == 9 || m == 11 then 30
  else 31

/-- Split a character list at every occurrence of `sep`. -/
def splitChar (sep : Char) : List Char → List (List Char)
  | [] => [[]]
  | c :: r =>
    let rest := splitChar sep r
    if c = sep then [] :: rest
    else
      match rest with
      | h :: t => (c :: h) :: t
      | [] => [[c]]

/-- `pd.to_datetime(..., format="%d/%m/%Y", errors="raise")` on a single
string cell: strictly `DD/MM/YYYY` with one- or two-digit day and month,
a four-digit year, calendar validity, and the `pd.Timestamp` range —
midnight of the date must fit in a 64-bit-nanosecond timestamp, i.e.
1677-09-22 .. 2262-04-11; outside it `OutOfBoundsDatetime` (a
`ValueError` subclass) is raised. `none` models the raised error of
either kind. -/
def toDatetimeStr (s : String) : Option Date :=
  match splitChar '/' s.data with
  | [d, m, y] =>
    if isDigits d && isDigits m && isDigits y
        && decide (1 ≤ d.length) && decide (d.length ≤ 2)
        && decide (1 ≤ m.length) && decide (m.length ≤ 2)
        && decide (y.length = 4) then
      let dv := digitsToNat d
      let mv := digitsToNat m
      let yv := digitsToNat y
      if 1 ≤ mv ∧ mv ≤ 12 ∧ 1 ≤ dv ∧ dv ≤ daysInMonth yv mv
          ∧ 16770922 ≤ yv * 10000 + mv * 100 + dv
          ∧ yv * 10000 + mv * 100 + dv ≤ 22620411 then
        some ⟨yv, mv, dv⟩
      else none
    else none
  | _ => none

/-- The table handed to `read_midata`: the result of `pd.read_csv`. -/
structure RawTable where
  headers : List String
  rows : List (List (Option String))
deriving DecidableEq

/-- The Python exceptions `read_midata` can raise. -/
inductive ParseError where
  /-- `MidataCSVError` from `_check_midata_columns` (the spec's `SchemaError`). -/
  | schemaError (msg : String)
  /-- `IndexError` from `df.iat[-1, 0]` on a zero-row frame. -/
  | indexError
  /-- `AttributeError`: `.lower()` on a non-string cell, or `.str` on a
  column whose every cell was empty (float dtype). -/
  | attributeError (what : String)
  /-- `ValueError` from `pd.to_numeric` (the spec's `NumericParseError`),
  carrying the offending cell text. -/
  | numericParseError (value : String)
  /-- `ValueError` from `pd.to_datetime` (the spec's `DateParseError`),
  carrying the offending cell text. -/
  | dateParseError (value : String)
deriving DecidableEq

/-- One row after column selection and renaming, still raw text. -/
structure RawRecord where
  date : Option String
  type : Option String
  description : Option String
  amount : Option String
  balance : Option String
deriving DecidableEq

/-- One row of the canonical output table. `none` in `date` is `NaT`, in
`amount`/`balance` it is `NaN`, in the text fields missing data. -/
structure Record where
  date : Option Date
  type : Option String
  description : Option String
  amount : Option Rat
  balance : Option Rat
deriving DecidableEq

/-- The required midata columns, in the order `_check_midata_columns`
checks and selects them. -/
def requiredColumns : List String :=
  ["date", "type", "merchant/description", "debit/credit", "balance"]

/-- Normalised header labels (`df.columns = [c.strip().lower() ...]`). -/
def normalizeHeaders (hs : List String) : List String := hs.map normalizeHeader

/-- The required columns absent from the normalised header, in required
order (the loop in `_check_midata_columns`). -/
def missingColumns (hs : List String) : List String :=
  requiredColumns.filter (fun c => !(hs.contains c))

/-- Python `", ".join(...)`. -/
def commaJoin : List String → String
  | [] => ""
  | [x] => x
  | x :: xs => x ++ ", " ++ commaJoin xs

/-- Split a character list at its LAST comma, returning the parts
before and after it; `none` when there is no comma. Models
`msg.rsplit(",", 1)`. -/
def lastCommaSplit : List Char → Option (List Char × List Char)
  | [] => none
  | c :: rest =>
    match lastCommaSplit rest with
    | some (a, b) => some (c :: a, b)
    | none => if c = ',' then some ([], rest) else none

/-- The human-readable missing-column list built by
`_check_midata_columns`: quote each name, comma-join, then replace the
last comma with " and" (`" and".join(msg.rsplit(",", 1))`). -/
def missingMsg (missing : List String) : String :=
  let msg := commaJoin (missing.map (fun s => "'" ++ s ++ "'"))
  match lastCommaSplit msg.data with
  | none => msg
  | some (a, b) => ⟨a⟩ ++ " and" ++ (⟨b⟩ : String)

/-- Cell of `row` under the (normalised) header label `c`; `none` both
for a `NaN` cell and for a ragged row. First-match lookup: this is
faithful exactly when no two normalised labels coincide (`read_csv`
mangles duplicate raw headers, so duplicates can arise only when
distinct raw headers collapse under strip+lowercase; pandas then
selects every duplicate label and the later `df[c]`/`.str`/`to_datetime`
operations raise, so no success theorem below quantifies over such
inputs — `c3_valid_inputs_succeed` carries an explicit no-duplicates
hypothesis). -/
def getCell (hs : List String) (row : List (Option String)) (c : String) : Option String :=
  match hs.findIdx? (fun h => h = c) with
  | some i => (row.get? i).join
  | none => none

/-- `df.loc[:, columns]` followed by the rename, applied to one row. -/
def selectRow (hs : List String) (row : List (Option String)) : RawRecord :=
  { date := getCell hs row "date"
    type := getCell hs row "type"
    description := getCell hs row "merchant/description"
    amount := getCell hs row "debit/credit"
    balance := getCell hs row "balance" }

/-- `_check_midata_columns`: normalise the header, fail with
`MidataCSVError` naming the missing required columns, otherwise select
the required columns in order and rename them. -/
def check_midata_columns (t : RawTable) : Except ParseError (List RawRecord) :=
  let hs := normalizeHeaders t.headers
  let missing := missingColumns hs
  if missing.isEmpty then
    .ok (t.rows.map (selectRow hs))
  else
    .error (.schemaError
      ("the following columns are missing from midata CSV: " ++ missingMsg missing))

/-- The guard `df.iat[-1, 0].lower().startswith("arranged")` and the
conditional `df.drop(df.index[-1])`: column 0 of the selected frame is
`date`. `IndexError` on an empty frame. `AttributeError` when
`iat[-1, 0]` is not a string: either the whole date column was read as
a numeric dtype (every cell numeric text or empty), or the column is
`object` but the last cell is `NaN` — a number has no `.lower()`. -/
def dropOverdraftRow (rows : List RawRecord) : Except ParseError (List RawRecord) :=
  match rows.getLast? with
  | none => .error .indexError
  | some last =>
    if (rows.map (·.date)).all cellIsNumericText then
      .error (.attributeError "lower")
    else
      match last.date with
      | none => .error (.attributeError "lower")
      | some d =>
        if startsWithStr "arranged" (lowerStr d) then .ok rows.dropLast
        else .ok rows

/-- Structural effectful map over a list (pandas converts a whole column,
raising on the first bad cell). -/
def mapMExcept (f : α → Except ParseError β) : List α → Except ParseError (List β)
  | [] => .ok []
  | x :: xs =>
    match f x with
    | .error e => .error e
    | .ok y =>
      match mapMExcept f xs with
      | .error e => .error e
      | .ok ys => .ok (y :: ys)

/-- One cell of `pd.to_numeric(df[c].str.replace("£", ""))`: `NaN`
passes through, a string has every `£` removed and is then parsed. -/
def toNumericCell (cell : Option String) : Except ParseError (Option Rat) :=
  match cell with
  | none => .ok none
  | some s =>
    match toNumericStr (removePound s) with
    | some v => .ok (some v)
    | none => .error (.numericParseError s)

/-- `df[c] = pd.to_numeric(df[c].str.replace("£", ""), errors="raise")`.
`preDrop` is the column as read from the CSV — it fixes the dtype: a
column whose every cell is numeric text or empty (the `£` prefix being
optional, plain "123.45" counts) is read as float/int, and `.str` on it
raises `AttributeError`; `postDrop` is the column actually converted. -/
def toNumericColumn (preDrop postDrop : List (Option String)) :
    Except ParseError (List (Option Rat)) :=
  if preDrop.all cellIsNumericText && !preDrop.isEmpty then
    .error (.attributeError "str")
  else
    mapMExcept toNumericCell postDrop

/-- One cell of `pd.to_datetime(df["date"], format="%d/%m/%Y").dt.date`:
`NaN` becomes `NaT`, a string is parsed strictly. -/
def toDateCell (cell : Option String) : Except ParseError (Option Date) :=
  match cell with
  | none => .ok none
  | some s =>
    match toDatetimeStr s with
    | some d => .ok (some d)
    | none => .error (.dateParseError s)

/-- Zip the converted columns back into records (the final frame). -/
def assemble : List RawRecord → List (Option Rat) → List (Option Rat) →
    List (Option Date) → List Record
  | r :: rs, a :: amts, b :: bals, d :: dts =>
    { date := d, type := r.type, description := r.description,
      amount := a, balance := b } :: assemble rs amts bals dts
  | _, _, _, _ => []

/-- `read_midata`: check and rename columns, drop the trailing overdraft
row, convert `amount`, `balance` and then `date`, and return the frame. -/
def read_midata (t : RawTable) : Except ParseError (List Record) := do
  let selected ← check_midata_columns t
  let kept ← dropOverdraftRow selected
  let amounts ← toNumericColumn (selected.map (·.amount)) (kept.map (·.amount))
  let balances ← toNumericColumn (selected.map (·.balance)) (kept.map (·.balance))
  let dates ← mapMExcept toDateCell (kept.map (·.date))
  return assemble kept amounts balances dates

/-- Date cell of the last data row under the normalised header — the
cell `df.iat[-1, 0]` reads. -/
def lastDateCell (t : RawTable) : Option String :=
  match t.rows.getLast? with
  | none => none
  | some row => getCell (normalizeHeaders t.headers) row "date"

/-- Quoted column name, as in the error message. -/
def quoteName (s : String) : String := "'" ++ s ++ "'"

/-- Formatter the spec describes for the missing-column list:
comma-separated quoted names with " and " (and no comma) before the
last name. Spec-side definition, to be compared with `missingMsg`. -/
def specJoinAnd : List String → String
  | [] => ""
  | [x] => quoteName x
  | [x, y] => quoteName x ++ " and " ++ quoteName y
  | x :: xs => quoteName x ++ ", " ++ specJoinAnd xs

/- Concrete tables used as exhibits and witnesses. -/

/-- Statement in the shape real midata exports have: the trailing
overdraft row carries "Arranged overdraft limit" in its first (date)
column and an empty date would not occur. -/
def sampleStatement : RawTable :=
  { headers := ["Date", "Type", "Merchant/Description", "Debit/Credit", "Balance"]
    rows := [
      [some "01/01/2023", some "Payment", some "Shop", some "-£20.00", some "£980.00"],
      [some "Arranged overdraft limit", none, none, none, some "£500.00"]] }

/-- The record for the Payment row of the samples. -/
def paymentRecord : Record :=
  { date := some ⟨2023, 1, 1⟩, type := some "Payment", description := some "Shop"
    amount := some (mkRat (-2000) 100), balance := some (mkRat 98000 100) }

/-- Table whose last row says "Arranged Overdraft Limit" in its `type`
column while its date column holds an ordinary date; every cell is
well-formed. -/
def typeArrangedInput : RawTable :=
  { headers := ["Date", "Type", "Merchant/Description", "Debit/Credit", "Balance"]
    rows := [
      [some "01/01/2023", some "Payment", some "Shop", some "-£20.00", some "£980.00"],
      [some "02/01/2023", some "Arranged Overdraft Limit", some "Fee", some "£1.00", some "£2.00"]] }

/-- What `read_midata` returns on `typeArrangedInput`. -/
def typeArrangedOutput : List Record :=
  [paymentRecord,
   { date := some ⟨2023, 1, 2⟩, type := some "Arranged Overdraft Limit",
     description := some "Fee", amount := some (mkRat 100 100),
     balance := some (mkRat 200 100) }]

/-- The end-to-end scenario table of the spec: the second row has
"Arranged Overdraft Limit" in `type` and empty merchant/description and
debit/credit cells (read as `NaN`). -/
def scenarioInput : RawTable :=
  { headers := ["Date", "Type", "Merchant/Description", "Debit/Credit", "Balance"]
    rows := [
      [some "01/01/2023", some "Payment", some "Shop", some "-£20.00", some "£980.00"],
      [some "02/01/2023", some "Arranged Overdraft Limit", none, none, some "£0.00"]] }

/-- What `read_midata` returns on `scenarioInput`. -/
def scenarioOutput : List Record :=
  [paymentRecord,
   { date := some ⟨2023, 1, 2⟩, type := some "Arranged Overdraft Limit",
     description := none, amount := none, balance := some (mkRat 0 100) }]

/-- The single record the spec's scenario says should be returned. -/
def scenarioClaimedRecord : Record := paymentRecord

/-- A header-only upload: the five required columns and no data rows. -/
def headerOnlyInput : RawTable :=
  { headers := ["date", "type", "merchant/description", "debit/credit", "balance"]
    rows := [] }

/-- Input missing two required columns. -/
def missingTwoInput : RawTable :=
  { headers := [" Type ", "merchant/description", "debit/credit"], rows := [] }

/-- Input missing one required column. -/
def missingOneInput : RawTable :=
  { headers := ["Date", "Type", "Merchant/Description", "Debit/Credit"], rows := [] }

/-- One-row table with the given raw amount and balance cells. -/
def moneyRow (a b : String) : RawTable :=
  { headers := ["date", "type", "merchant/description", "debit/credit", "balance"]
    rows := [[some "01/01/2023", some "Payment", some "Shop", some a, some b]] }

/-- Column labels of the frame `read_midata` returns. -/
def recordColumns : List String := ["date", "type", "description", "amount", "balance"]

/-- Exceptions the update handler can raise beyond the parser's. -/
inductive UpdateError where
  /-- An exception escaping `read_midata`. -/
  | parseFailed (e : ParseError)
  /-- `ValueError` from `min()`/`max()` of an empty date column. -/
  | valueError
  /-- `KeyError` from `df[[...]]` naming an absent column label. -/
  | keyError (col : String)
deriving DecidableEq

/-- Effects of one run of `_update_source`: which widget state was
assigned before the handler returned or raised. -/
structure DashUpdate where
  /-- New `source.data`, when the assignment was reached. -/
  sourceData : Option (List Record)
  /-- New `x_range` bounds, when the assignment was reached. -/
  xRange : Option (Option Date × Option Date)
  /-- New `y_range` upper bound, when the assignment was reached. -/
  yRange : Option Rat
  /-- The exception escaping the handler, if any. -/
  failure : Option UpdateError
deriving DecidableEq

/-- Strict chronological order on dates. -/
def dateLt (a b : Date) : Bool :=
  a.year < b.year || (a.year == b.year
    && (a.month < b.month || (a.month == b.month && a.day < b.day)))

/-- Python `<` on date cells: every comparison against `NaT` is false. -/
def optDateLt (a b : Option Date) : Bool :=
  match a, b with
  | some x, some y => dateLt x y
  | _, _ => false

/-- Python `min()` over the date column (`none` for the empty-sequence
`ValueError`). -/
def pyMin (l : List (Option Date)) : Option (Option Date) :=
  match l with
  | [] => none
  | x :: xs => some (xs.foldl (fun acc y => if optDateLt y acc then y else acc) x)

/-- Python `max()` over the date column. -/
def pyMax (l : List (Option Date)) : Option (Option Date) :=
  match l with
  | [] => none
  | x :: xs => some (xs.foldl (fun acc y => if optDateLt acc y then y else acc) x)

/-- First label of `wanted` that is not a column of the frame — the
label a `df[[...]]` selection raises `KeyError` for. -/
def firstMissingLabel (cols wanted : List String) : Option String :=
  wanted.find? (fun c => !cols.contains c)

/-- `Dashboard._update_source` on an uploaded table: run `read_midata`,
assign `source.data`, assign `x_range` from `min`/`max` of the date
column, then select `df[["balance", "abs_amount"]]` to compute the
`y_range` upper bound `ceil(max/1000)*1000`. The final branch is
unreachable for frames `read_midata` produces (they have no
`abs_amount` column); it totalises the model along the spec's
description of the value range. -/
def update_source (t : RawTable) : DashUpdate :=
  match read_midata t with
  | .error e => { sourceData := none, xRange := none, yRange := none,
                  failure := some (.parseFailed e) }
  | .ok df =>
    match pyMin (df.map (·.date)), pyMax (df.map (·.date)) with
    | some mn, some mx =>
      match firstMissingLabel recordColumns ["balance", "abs_amount"] with
      | some c =>
        { sourceData := some df, xRange := some (mn, mx), yRange := none,
          failure := some (.keyError c) }
      | none =>
        let vals : List Rat :=
          (df.map (·.balance) ++ df.map (fun r => r.amount.map abs)).filterMap id
        match vals with
        | [] => { sourceData := some df, xRange := some (mn, mx), yRange := none,
                  failure := some .valueError }
        | v :: vs =>
          let m := vs.foldl max v
          { sourceData := some df, xRange := some (mn, mx),
            yRange := some ((⌈m / (1000 : Rat)⌉ * 1000 : Int) : Rat), failure := none }
    | _, _ => { sourceData := some df, xRange := none, yRange := none,
                failure := some .valueError }

theorem check_midata_columns_ok {t : RawTable}
    (h : missingColumns (normalizeHeaders t.headers) = []) :
    check_midata_columns t = .ok (t.rows.map (selectRow (normalizeHeaders t.headers))) := by
  simp [check_midata_columns, h]

theorem check_midata_columns_err {t : RawTable}
    (h : missingColumns (normalizeHeaders t.headers) ≠ []) :
    check_midata_columns t = .error (.schemaError
      ("the following columns are missing from midata CSV: "
        ++ missingMsg (missingColumns (normalizeHeaders t.headers)))) := by
  simp [check_midata_columns, h]

theorem check_midata_columns_ok_inv {t : RawTable} {sel : List RawRecord}
    (h : check_midata_columns t = .ok sel) :
    missingColumns (normalizeHeaders t.headers) = []
      ∧ sel = t.rows.map (selectRow (normalizeHeaders t.headers)) := by
  by_cases hm : missingColumns (normalizeHeaders t.headers) = []
  · rw [check_midata_columns_ok hm] at h
    exact ⟨hm, (Except.ok.inj h).symm⟩
  · rw [check_midata_columns_err hm] at h
    exact absurd h (by simp)

theorem mapMExcept_ok_length {f : α → Except ParseError β} {l : List α} {ys : List β}
    (h : mapMExcept f l = .ok ys) : ys.length = l.length := by
  induction l generalizing ys with
  | nil => simp [mapMExcept] at h; simp [← h]
  | cons x xs ih =>
    simp only [mapMExcept] at h
    cases hx : f x with
    | error e => rw [hx] at h; exact absurd h (by simp)
    | ok y =>
      rw [hx] at h
      cases hxs : mapMExcept f xs with
      | error e => rw [hxs] at h; exact absurd h (by simp)
      | ok zs =>
        rw [hxs] at h
        have := Except.ok.inj h
        simp [← this, ih hxs]

theorem mapMExcept_ok_forall {f : α → Except ParseError β} {l : List α} {ys : List β}
    (h : mapMExcept f l = .ok ys) : ∀ x ∈ l, ∃ y, f x = .ok y := by
  induction l generalizing ys with
  | nil => simp
  | cons x xs ih =>
    simp only [mapMExcept] at h
    cases hx : f x with
    | error e => rw [hx] at h; exact absurd h (by simp)
    | ok y =>
      rw [hx] at h
      cases hxs : mapMExcept f xs with
      | error e => rw [hxs] at h; exact absurd h (by simp)
      | ok zs =>
        intro a ha
        cases ha with
        | head => exact ⟨y, hx⟩
        | tail _ hmem => exact ih hxs a hmem

theorem assemble_length {rs : List RawRecord} {amts bals : List (Option Rat)}
    {dts : List (Option Date)}
    (ha : amts.length = rs.length) (hb : bals.length = rs.length)
    (hd : dts.length = rs.length) :
    (assemble rs amts bals dts).length = rs.length := by
  induction rs generalizing amts bals dts with
  | nil => simp [assemble]
  | cons r rs ih =>
    cases amts with
    | nil => simp at ha
    | cons a amts =>
      cases bals with
      | nil => simp at hb
      | cons b bals =>
        cases dts with
        | nil => simp at hd
        | cons d dts =>
          simp only [assemble, List.length_cons]
          rw [ih (by simpa using ha) (by simpa using hb) (by simpa using hd)]

theorem read_midata_run {t : RawTable} {sel kept : List RawRecord}
    {amts bals : List (Option Rat)} {dts : List (Option Date)}
    (h1 : check_midata_columns t = .ok sel)
    (h2 : dropOverdraftRow sel = .ok kept)
    (h3 : toNumericColumn (sel.map (·.amount)) (kept.map (·.amount)) = .ok amts)
    (h4 : toNumericColumn (sel.map (·.balance)) (kept.map (·.balance)) = .ok bals)
    (h5 : mapMExcept toDateCell (kept.map (·.date)) = .ok dts) :
    read_midata t = .ok (assemble kept amts bals dts) := by
  simp [read_midata, h1, h2, h3, h4, h5, Bind.bind, Except.bind, pure, Except.pure]

theorem read_midata_check_err {t : RawTable} {e : ParseError}
    (h : check_midata_columns t = .error e) : read_midata t = .error e := by
  simp [read_midata, h, Bind.bind, Except.bind]

theorem read_midata_drop_err {t : RawTable} {sel : List RawRecord} {e : ParseError}
    (h1 : check_midata_columns t = .ok sel)
    (h2 : dropOverdraftRow sel = .error e) : read_midata t = .error e := by
  simp [read_midata, h1, h2, Bind.bind, Except.bind]

theorem read_midata_amount_err {t : RawTable} {sel kept : List RawRecord} {e : ParseError}
    (h1 : check_midata_columns t = .ok sel)
    (h2 : dropOverdraftRow sel = .ok kept)
    (h3 : toNumericColumn (sel.map (·.amount)) (kept.map (·.amount)) = .error e) :
    read_midata t = .error e := by
  simp [read_midata, h1, h2, h3, Bind.bind, Except.bind]

theorem read_midata_ok_inv {t : RawTable} {out : List Record}
    (h : read_midata t = .ok out) :
    ∃ sel kept amts bals dts,
      check_midata_columns t = .ok sel ∧ dropOverdraftRow sel = .ok kept
        ∧ toNumericColumn (sel.map (·.amount)) (kept.map (·.amount)) = .ok amts
        ∧ toNumericColumn (sel.map (·.balance)) (kept.map (·.balance)) = .ok bals
        ∧ mapMExcept toDateCell (kept.map (·.date)) = .ok dts
        ∧ out = assemble kept amts bals dts := by
  cases h1 : check_midata_columns t with
  | error e => rw [read_midata_check_err h1] at h; exact absurd h (by simp)
  | ok sel =>
  cases h2 : dropOverdraftRow sel with
  | error e => rw [read_midata_drop_err h1 h2] at h; exact absurd h (by simp)
  | ok kept =>
  cases h3 : toNumericColumn (sel.map (·.amount)) (kept.map (·.amount)) with
  | error e => rw [read_midata_amount_err h1 h2 h3] at h; exact absurd h (by simp)
  | ok amts =>
  cases h4 : toNumericColumn (sel.map (·.balance)) (kept.map (·.balance)) with
  | error e =>
    have : read_midata t = .error e := by
      simp [read_midata, h1, h2, h3, h4, Bind.bind, Except.bind]
    rw [this] at h; exact absurd h (by simp)
  | ok bals =>
  cases h5 : mapMExcept toDateCell (kept.map (·.date)) with
  | error e =>
    have : read_midata t = .error e := by
      simp [read_midata, h1, h2, h3, h4, h5, Bind.bind, Except.bind]
    rw [this] at h; exact absurd h (by simp)
  | ok dts =>
    refine ⟨sel, kept, amts, bals, dts, rfl, h2, h3, h4, h5, ?_⟩
    rw [read_midata_run h1 h2 h3 h4 h5] at h
    exact (Except.ok.inj h).symm

theorem missingColumns_pattern (hs : List String) :
    missingColumns hs
      = ((bif hs.contains "date" then [] else ["date"])
        ++ (bif hs.contains "type" then [] else ["type"])
        ++ (bif hs.contains "merchant/description" then [] else ["merchant/description"])
        ++ (bif hs.contains "debit/credit" then [] else ["debit/credit"])
        ++ (bif hs.contains "balance" then [] else ["balance"])) := by
  simp only [missingColumns, requiredColumns, List.filter]
  cases hs.contains "date" <;> cases hs.contains "type"
    <;> cases hs.contains "merchant/description" <;> cases hs.contains "debit/credit"
    <;> cases hs.contains "balance" <;> rfl

theorem missingMsg_eq_specJoinAnd (hs : List String) :
    missingMsg (missingColumns hs) = specJoinAnd (missingColumns hs) := by
  rw [missingColumns_pattern]
  cases hs.contains "date" <;> cases hs.contains "type"
    <;> cases hs.contains "merchant/description" <;> cases hs.contains "debit/credit"
    <;> cases hs.contains "balance" <;> rfl

theorem toNumericColumn_ok_inv {pre post : List (Option String)} {amts : List (Option Rat)}
    (h : toNumericColumn pre post = .ok amts) :
    mapMExcept toNumericCell post = .ok amts := by
  by_cases hc : (pre.all cellIsNumericText && !pre.isEmpty) = true
  · simp [toNumericColumn, hc] at h
  · simp only [toNumericColumn, hc] at h
    simpa using h

theorem toDateCell_nan : toDateCell none = .ok none := rfl

theorem dropOverdraftRow_cases {sel : List RawRecord} {r : RawRecord} {d : String}
    (hlast : sel.getLast? = some r) (hdate : r.date = some d)
    (hobj : (sel.map (fun x => x.date)).all cellIsNumericText = false) :
    dropOverdraftRow sel
      = .ok (if startsWithStr "arranged" (lowerStr d) then sel.dropLast else sel) := by
  simp only [dropOverdraftRow, hlast, hobj, hdate]
  by_cases h : startsWithStr "arranged" (lowerStr d) = true
  · simp [h]
  · simp only [Bool.not_eq_true] at h
    simp [h]

theorem dropOverdraftRow_ok_inv {rows kept : List RawRecord}
    (h : dropOverdraftRow rows = .ok kept) :
    ∃ r d, rows.getLast? = some r ∧ r.date = some d
      ∧ (rows.map (fun x => x.date)).all cellIsNumericText = false
      ∧ kept = (if startsWithStr "arranged" (lowerStr d) = true
          then rows.dropLast else rows) := by
  cases hl : rows.getLast? with
  | none => simp [dropOverdraftRow, hl] at h
  | some r =>
    by_cases hall : (rows.map (fun x => x.date)).all cellIsNumericText = true
    · simp [dropOverdraftRow, hl, hall] at h
    · have hobj : (rows.map (fun x => x.date)).all cellIsNumericText = false :=
        Bool.eq_false_iff.mpr hall
      cases hdate : r.date with
      | none => simp [dropOverdraftRow, hl, hobj, hdate] at h
      | some d =>
        refine ⟨r, d, rfl, hdate, hobj, ?_⟩
        have hdrop := dropOverdraftRow_cases hl hdate hobj
        have := hdrop.symm.trans h
        exact (Except.ok.inj this).symm

/- Claim theorems. -/

/-- C2 counterexample: on the spec's two-row end-to-end scenario the
parser does NOT return exactly the single Payment record — the trailing
"Arranged Overdraft Limit" row is not dropped (the code matches
"arranged" against the first, date, column) and the output has two
records. -/
theorem c2_counterexample :
    read_midata scenarioInput = .ok scenarioOutput
      ∧ read_midata scenarioInput ≠ .ok [scenarioClaimedRecord] := by
  refine ⟨rfl, fun h => ?_⟩
  have h1 : scenarioOutput = [scenarioClaimedRecord] :=
    Except.ok.inj ((rfl : read_midata scenarioInput = .ok scenarioOutput).symm.trans h)
  have h2 := congrArg List.length h1
  exact absurd h2 (by decide)

/-- C2 (amended): on the two-row scenario input, parse succeeds and
returns two records — the Payment record followed by a record for the
overdraft row (date 2023-01-02, type "Arranged Overdraft Limit",
missing description and amount, balance 0.00). The trailing row is not
dropped because the code inspects the date column, which holds
"02/01/2023", not the type column. -/
theorem c2_amended_two_records :
    read_midata scenarioInput = .ok
      [{ date := some ⟨2023, 1, 1⟩, type := some "Payment", description := some "Shop",
         amount := some (mkRat (-2000) 100), balance := some (mkRat 98000 100) },
       { date := some ⟨2023, 1, 2⟩, type := some "Arranged Overdraft Limit",
         description := none, amount := none, balance := some (mkRat 0 100) }] := rfl

/-- C4: whenever required columns are missing after header
normalisation, `read_midata` fails with the schema error whose message
lists exactly the missing names, quoted and comma-separated, with
" and " (and no comma) before the last name. -/
theorem c4_schema_error_message (t : RawTable)
    (h : missingColumns (normalizeHeaders t.headers) ≠ []) :
    read_midata t = .error (.schemaError
      ("the following columns are missing from midata CSV: "
        ++ specJoinAnd (missingColumns (normalizeHeaders t.headers)))) := by
  have hc := check_midata_columns_err h
  rw [missingMsg_eq_specJoinAnd] at hc
  exact read_midata_check_err hc

/-- C4 witness: two missing columns give "'date' and 'balance'", one
missing column gives "'balance'" with no "and". -/
theorem c4_witness :
    read_midata missingTwoInput = .error (.schemaError
      "the following columns are missing from midata CSV: 'date' and 'balance'")
    ∧ read_midata missingOneInput = .error (.schemaError
      "the following columns are missing from midata CSV: 'balance'") :=
  ⟨c4_schema_error_message missingTwoInput (by decide),
   c4_schema_error_message missingOneInput (by decide)⟩

/-- C8: evaluation at a failing input. On a successful parse the update
handler replaces the bound data and sets the date range, but then
raises `KeyError` for the `abs_amount` column — the parse result has
columns date, type, description, amount, balance only — so the value
range is never recomputed. -/
theorem c8_keyerror_abs_amount :
    read_midata sampleStatement = .ok [paymentRecord]
      ∧ update_source sampleStatement =
        { sourceData := some [paymentRecord],
          xRange := some (some ⟨2023, 1, 1⟩, some ⟨2023, 1, 1⟩),
          yRange := none,
          failure := some (.keyError "abs_amount") } :=
  ⟨rfl, rfl⟩

/-- C9: an input with the five required columns but no data rows makes
`read_midata` raise the unguarded `IndexError` of `df.iat[-1, 0]` — it
neither returns a table nor raises the schema, numeric or date error. -/
theorem c9_empty_rows_index_error (t : RawTable)
    (hmiss : missingColumns (normalizeHeaders t.headers) = [])
    (hrows : t.rows = []) :
    read_midata t = .error .indexError
      ∧ (∀ out, read_midata t ≠ .ok out)
      ∧ (∀ s, ParseError.indexError ≠ .schemaError s
          ∧ ParseError.indexError ≠ .numericParseError s
          ∧ ParseError.indexError ≠ .dateParseError s) := by
  have hc := check_midata_columns_ok hmiss
  rw [hrows] at hc
  simp only [List.map_nil] at hc
  have hread : read_midata t = .error .indexError := read_midata_drop_err hc rfl
  refine ⟨hread, ?_, ?_⟩
  · intro out h
    rw [hread] at h
    exact nomatch h
  · intro s
    refine ⟨?_, ?_, ?_⟩ <;> intro h <;> exact nomatch h

/-- C9 witness: the header-only upload. -/
theorem c9_witness : read_midata headerOnlyInput = .error .indexError :=
  (c9_empty_rows_index_error headerOnlyInput rfl rfl).1

/-- C10: `£`-stripping removes every occurrence of the symbol, not just
a leading one: no `£` survives `removePound`, and the values "12£3.45"
and "££123.45" both parse to 123.45 end to end. -/
theorem c10_strip_all_pounds :
    (∀ s : String, '£' ∉ (removePound s).data)
      ∧ read_midata (moneyRow "12£3.45" "££123.45")
        = .ok [{ date := some ⟨2023, 1, 1⟩, type := some "Payment",
                 description := some "Shop", amount := some (mkRat 12345 100),
                 balance := some (mkRat 12345 100) }] := by
  refine ⟨fun s hmem => ?_, rfl⟩
  simp [removePound, List.mem_filter] at hmem

theorem getLast?_map_list {α β : Type} (f : α → β) (l : List α) :
    (l.map f).getLast? = l.getLast?.map f := by
  induction l with
  | nil => rfl
  | cons x xs ih =>
    cases xs with
    | nil => rfl
    | cons y ys =>
      simp only [List.map_cons] at ih ⊢
      rw [List.getLast?_cons_cons, List.getLast?_cons_cons]
      exact ih

theorem toNumericCell_ok_isSome {s : String} {y : Option Rat}
    (h : toNumericCell (some s) = .ok y) :
    (toNumericStr (removePound s)).isSome = true := by
  cases hv : toNumericStr (removePound s) with
  | none => simp [toNumericCell, hv] at h
  | some v => simp

theorem toDateCell_ok_isSome {s : String} {y : Option Date}
    (h : toDateCell (some s) = .ok y) :
    (toDatetimeStr s).isSome = true := by
  cases hv : toDatetimeStr s with
  | none => simp [toDateCell, hv] at h
  | some v => simp

/-- C7: the parse is all-or-nothing — either it raises an error and no
table exists, or it returns one record per kept row with every amount,
balance and date cell of every kept row successfully converted; no
partial table is possible. -/
theorem c7_all_or_nothing (t : RawTable) :
    (∃ e, read_midata t = .error e)
    ∨ (∃ sel kept out, check_midata_columns t = .ok sel ∧ dropOverdraftRow sel = .ok kept
        ∧ read_midata t = .ok out ∧ out.length = kept.length
        ∧ ∀ r ∈ kept,
            (∀ s, r.amount = some s → (toNumericStr (removePound s)).isSome = true)
            ∧ (∀ s, r.balance = some s → (toNumericStr (removePound s)).isSome = true)
            ∧ (∀ s, r.date = some s → (toDatetimeStr s).isSome = true)) := by
  cases h : read_midata t with
  | error e => exact Or.inl ⟨e, rfl⟩
  | ok out =>
    right
    obtain ⟨sel, kept, amts, bals, dts, h1, h2, h3, h4, h5, hout⟩ := read_midata_ok_inv h
    refine ⟨sel, kept, out, h1, h2, rfl, ?_, ?_⟩
    · rw [hout]
      exact assemble_length
        (by simpa using mapMExcept_ok_length (toNumericColumn_ok_inv h3))
        (by simpa using mapMExcept_ok_length (toNumericColumn_ok_inv h4))
        (by simpa using mapMExcept_ok_length h5)
    · intro r hr
      have hamt := mapMExcept_ok_forall (toNumericColumn_ok_inv h3)
      have hbal := mapMExcept_ok_forall (toNumericColumn_ok_inv h4)
      have hdt := mapMExcept_ok_forall h5
      refine ⟨?_, ?_, ?_⟩
      · intro s hs
        obtain ⟨y, hy⟩ := hamt (some s) (by rw [← hs]; exact List.mem_map_of_mem _ hr)
        exact toNumericCell_ok_isSome hy
      · intro s hs
        obtain ⟨y, hy⟩ := hbal (some s) (by rw [← hs]; exact List.mem_map_of_mem _ hr)
        exact toNumericCell_ok_isSome hy
      · intro s hs
        obtain ⟨y, hy⟩ := hdt (some s) (by rw [← hs]; exact List.mem_map_of_mem _ hr)
        exact toDateCell_ok_isSome hy

/-- C1 counterexample: a last row whose `type` field is "Arranged
Overdraft Limit" (which does start with "arranged" case-insensitively)
is NOT dropped when its date cell is an ordinary date — the output has
as many rows as the input, not one fewer. -/
theorem c1_counterexample :
    startsWithStr "arranged" (lowerStr "Arranged Overdraft Limit") = true
      ∧ read_midata typeArrangedInput = .ok typeArrangedOutput
      ∧ typeArrangedOutput.length = typeArrangedInput.rows.length
      ∧ read_midata typeArrangedInput ≠ .ok [paymentRecord] := by
  refine ⟨rfl, rfl, rfl, fun h => ?_⟩
  have h1 : typeArrangedOutput = [paymentRecord] :=
    Except.ok.inj
      ((rfl : read_midata typeArrangedInput = .ok typeArrangedOutput).symm.trans h)
  exact absurd (congrArg List.length h1) (by decide)

/-- C1 (amended): the trailing-row drop is keyed on the last row's DATE
cell (column 0 of the selected frame), not its type: on every
successful parse whose last row's date cell is `d`, the output has one
fewer row than the input exactly when `d` starts with "arranged"
case-insensitively, and the same number of rows otherwise. -/
theorem c1_drop_keyed_on_date (t : RawTable) (out : List Record) (d : String)
    (hok : read_midata t = .ok out)
    (hd : lastDateCell t = some d) :
    (startsWithStr "arranged" (lowerStr d) = true → out.length + 1 = t.rows.length)
    ∧ (startsWithStr "arranged" (lowerStr d) = false → out.length = t.rows.length) := by
  obtain ⟨sel, kept, amts, bals, dts, h1, h2, h3, h4, h5, hout⟩ := read_midata_ok_inv hok
  obtain ⟨hmiss, hsel⟩ := check_midata_columns_ok_inv h1
  cases hlast : t.rows.getLast? with
  | none => simp [lastDateCell, hlast] at hd
  | some row =>
    have hdcell : getCell (normalizeHeaders t.headers) row "date" = some d := by
      simpa [lastDateCell, hlast] using hd
    have hsellast : sel.getLast? = some (selectRow (normalizeHeaders t.headers) row) := by
      rw [hsel, getLast?_map_list, hlast]
      rfl
    obtain ⟨r2, d2, hlast2, hdate2, hobj2, hkept2⟩ := dropOverdraftRow_ok_inv h2
    have hr2 : r2 = selectRow (normalizeHeaders t.headers) row :=
      Option.some.inj (hlast2.symm.trans hsellast)
    have hd2 : d2 = d := by
      refine Option.some.inj ?_
      rw [← hdate2, hr2]
      exact hdcell
    have hkept : kept
        = (if startsWithStr "arranged" (lowerStr d) then sel.dropLast else sel) := by
      rw [hkept2, hd2]
    have hlen : out.length = kept.length := by
      rw [hout]
      exact assemble_length
        (by simpa using mapMExcept_ok_length (toNumericColumn_ok_inv h3))
        (by simpa using mapMExcept_ok_length (toNumericColumn_ok_inv h4))
        (by simpa using mapMExcept_ok_length h5)
    have hsellen : sel.length = t.rows.length := by
      rw [hsel]
      exact List.length_map _ _
    have hselpos : 0 < sel.length := by
      cases hn : sel with
      | nil => rw [hn] at hsellast; exact absurd hsellast (by simp)
      | cons a l => simp
    constructor
    · intro hb
      have hkl : kept = sel.dropLast := by rw [hkept, if_pos hb]
      rw [hlen, hkl, List.length_dropLast]
      omega
    · intro hb
      have hkl : kept = sel := by
        rw [hkept, if_neg]
        simp [hb]
      rw [hlen, hkl, hsellen]

/-- C1 witness: on a statement in the real midata shape (the overdraft
marker in the first, date, column) the last row is dropped and the
output is one row shorter. -/
theorem c1_witness :
    read_midata sampleStatement = .ok [paymentRecord]
      ∧ lastDateCell sampleStatement = some "Arranged overdraft limit"
      ∧ ([paymentRecord] : List Record).length + 1 = sampleStatement.rows.length :=
  ⟨rfl, rfl,
    (c1_drop_keyed_on_date sampleStatement [paymentRecord] "Arranged overdraft limit"
      rfl rfl).1 (by decide)⟩

/-- C7 witness: instance of the all-or-nothing property at a table with
a non-numeric amount cell. -/
theorem c7_witness :
    (∃ e, read_midata (moneyRow "bad" "£1.00") = .error e)
    ∨ (∃ sel kept out, check_midata_columns (moneyRow "bad" "£1.00") = .ok sel
        ∧ dropOverdraftRow sel = .ok kept
        ∧ read_midata (moneyRow "bad" "£1.00") = .ok out ∧ out.length = kept.length
        ∧ ∀ r ∈ kept,
            (∀ s, r.amount = some s → (toNumericStr (removePound s)).isSome = true)
            ∧ (∀ s, r.balance = some s → (toNumericStr (removePound s)).isSome = true)
            ∧ (∀ s, r.date = some s → (toDatetimeStr s).isSome = true)) :=
  c7_all_or_nothing (moneyRow "bad" "£1.00")

/-- C10 witness: no pound sign survives stripping of "££123.45". -/
theorem c10_witness : '£' ∉ (removePound "££123.45").data :=
  c10_strip_all_pounds.1 "££123.45"
